import Mathlib

/-!
Verification of the LifeFile ingestion pipeline
(`cf_lifefile_sftp_to_gcs.py` and `cf_gcs_to_bq_raw.py`).

Python strings are embedded as `List Char`; Python's `str.split(sep)`,
`str.lower()`, `str.strip()`, `fnmatch.fnmatch` and the f-string
formatting used by the two cloud functions are modelled by executable
Lean functions below.  The BigQuery `ingestion_log` table is a
`List LedgerRow`; the SQL statements of the helpers become list
operations keyed exactly as the `WHERE` clauses are.
-/

namespace LifeFile

/-- Python strings are lists of characters. -/
abbrev Str := List Char

/-- Coerce a Lean string literal to the `List Char` embedding. -/
def str (s : String) : Str := s.toList

/-- Python `s.lower()` (ASCII case folding, as used on file names here). -/
def pyLower (s : Str) : Str := s.map Char.toLower

/-- Python `s.strip()`: remove leading and trailing whitespace. -/
def pyStrip (s : Str) : Str :=
  ((s.dropWhile Char.isWhitespace).reverse.dropWhile Char.isWhitespace).reverse

/-- Python `s.replace(old, new)` for single-character arguments
(used for `isoformat().replace(":", "-")`). -/
def replaceChar (old new : Char) (s : Str) : Str :=
  s.map (fun c => if c = old then new else c)

/-- Python `s.split(sep)` for a one-character separator: splits at every
occurrence, keeping empty components, and `"".split(sep) == [""]`. -/
def pySplitSep (sep : Char) : Str → List Str
  | [] => [[]]
  | c :: rest =>
    match pySplitSep sep rest with
    | [] => [[]]
    | w :: ws => if c = sep then [] :: w :: ws else (c :: w) :: ws

theorem pySplitSep_ne_nil (sep : Char) (s : Str) : pySplitSep sep s ≠ [] := by
  cases s with
  | nil => simp [pySplitSep]
  | cons c rest =>
    simp only [pySplitSep]
    rcases h : pySplitSep sep rest with _ | ⟨w, ws⟩
    · simp
    · by_cases hc : c = sep <;> simp [hc]

theorem pySplitSep_nil (sep : Char) : pySplitSep sep [] = [[]] := rfl

theorem pySplitSep_append (sep : Char) (a b : Str) :
    pySplitSep sep (a ++ sep :: b) = pySplitSep sep a ++ pySplitSep sep b := by
  induction a with
  | nil =>
    simp only [List.nil_append, pySplitSep]
    rcases h : pySplitSep sep b with _ | ⟨w, ws⟩
    · exact absurd h (pySplitSep_ne_nil sep b)
    · simp
  | cons c a ih =>
    rcases h : pySplitSep sep a with _ | ⟨w, ws⟩
    · exact absurd h (pySplitSep_ne_nil sep a)
    · simp only [List.cons_append, pySplitSep, List.append_eq]
      rw [ih, h]
      simp only [List.cons_append]
      by_cases hc : c = sep <;> simp [hc]

theorem pySplitSep_no_sep (sep : Char) (s : Str) (h : sep ∉ s) :
    pySplitSep sep s = [s] := by
  induction s with
  | nil => rfl
  | cons c rest ih =>
    simp only [List.mem_cons, not_or] at h
    have hcs : ¬ c = sep := fun hc => h.1 hc.symm
    simp only [pySplitSep, ih h.2]
    simp [hcs]

/-- The first component of a separator-split of `a ++ sep :: b` with
`sep ∉ a` is `a` itself. -/
theorem pySplitSep_headI (sep : Char) (a b : Str) (h : sep ∉ a) :
    (pySplitSep sep (a ++ sep :: b)).headI = a := by
  rw [pySplitSep_append, pySplitSep_no_sep sep a h]
  rfl

/-! ### Decimal rendering (Python `f"{n:02d}"`, `%Y/%m/%d`, `isoformat`) -/

/-- The decimal digit character for `n % 10`. -/
def digitChar (n : Nat) : Char :=
  match n % 10 with
  | 0 => '0' | 1 => '1' | 2 => '2' | 3 => '3' | 4 => '4'
  | 5 => '5' | 6 => '6' | 7 => '7' | 8 => '8' | _ => '9'

theorem digitChar_toNat (n : Nat) : (digitChar n).toNat = 48 + n % 10 := by
  have h : n % 10 < 10 := Nat.mod_lt _ (by omega)
  unfold digitChar
  generalize n % 10 = m at h ⊢
  interval_cases m <;> rfl

/-- Decimal digits of `n`, most significant first, with a fuel argument
for structural recursion; the caller passes fuel `n + 1`, which strictly
dominates the `n / 10` descent, so the `0`-fuel base is never reached. -/
def natDigitsAux : Nat → Nat → List Char
  | 0, _ => []
  | fuel + 1, n =>
    if n < 10 then [digitChar n]
    else natDigitsAux fuel (n / 10) ++ [digitChar (n % 10)]

/-- Decimal digits of `n`, most significant first (no leading zeros;
`natDigits 0 = ['0']`). -/
def natDigits (n : Nat) : List Char := natDigitsAux (n + 1) n

/-- Python zero-padded decimal rendering `f"{n:0wd}"`. -/
def padNum (w n : Nat) : Str :=
  List.replicate (w - (natDigits n).length) '0' ++ natDigits n

theorem natDigitsAux_range (fuel n : Nat) :
    ∀ c ∈ natDigitsAux fuel n, 48 ≤ c.toNat ∧ c.toNat ≤ 57 := by
  induction fuel generalizing n with
  | zero => simp [natDigitsAux]
  | succ fuel ih =>
    intro c hc
    rw [natDigitsAux] at hc
    split at hc
    · simp only [List.mem_singleton] at hc
      subst hc
      rw [digitChar_toNat]
      have : n % 10 < 10 := Nat.mod_lt _ (by omega)
      omega
    · rcases List.mem_append.mp hc with h1 | h2
      · exact ih (n / 10) c h1
      · simp only [List.mem_singleton] at h2
        subst h2
        rw [digitChar_toNat]
        have : n % 10 % 10 < 10 := Nat.mod_lt _ (by omega)
        omega

/-- Every character produced by `natDigits` is a decimal digit. -/
theorem natDigits_range (n : Nat) : ∀ c ∈ natDigits n, 48 ≤ c.toNat ∧ c.toNat ≤ 57 :=
  natDigitsAux_range (n + 1) n

/-- Every character of a zero-padded decimal rendering is a digit. -/
theorem padNum_range (w n : Nat) : ∀ c ∈ padNum w n, 48 ≤ c.toNat ∧ c.toNat ≤ 57 := by
  intro c hc
  rcases List.mem_append.mp hc with h1 | h2
  · rw [List.eq_of_mem_replicate h1]
    decide
  · exact natDigits_range n c h2

/-- Evaluate a digit string back to the natural number it denotes. -/
def digitsVal (l : Str) : Nat :=
  l.foldl (fun acc c => acc * 10 + (c.toNat - 48)) 0

theorem digitsVal_go (init : Nat) (l : Str) :
    l.foldl (fun acc c => acc * 10 + (c.toNat - 48)) init =
      init * 10 ^ l.length + digitsVal l := by
  induction l generalizing init with
  | nil => simp [digitsVal]
  | cons c rest ih =>
    have h1 := ih (init * 10 + (c.toNat - 48))
    have h2 := ih (0 * 10 + (c.toNat - 48))
    simp only [digitsVal, List.foldl_cons, List.length_cons] at *
    rw [h1, h2]
    ring

theorem digitsVal_natDigitsAux (fuel n : Nat) (hf : n < fuel) :
    digitsVal (natDigitsAux fuel n) = n := by
  induction fuel generalizing n with
  | zero => omega
  | succ fuel ih =>
    rw [natDigitsAux]
    split
    · rename_i h
      simp [digitsVal, digitChar_toNat, Nat.mod_eq_of_lt h]
    · rename_i h
      have h1 : digitsVal (natDigitsAux fuel (n / 10)) = n / 10 := by
        apply ih
        have := Nat.div_lt_self (n := n) (by omega) (show 1 < 10 by omega)
        omega
      simp only [digitsVal, List.foldl_append, List.foldl_cons, List.foldl_nil] at *
      rw [h1, digitChar_toNat]
      omega

theorem digitsVal_natDigits (n : Nat) : digitsVal (natDigits n) = n :=
  digitsVal_natDigitsAux (n + 1) n (by omega)

theorem digitsVal_padNum (w n : Nat) : digitsVal (padNum w n) = n := by
  unfold padNum digitsVal
  rw [List.foldl_append]
  have hz : ∀ k : Nat, (List.replicate k '0').foldl
      (fun acc c => acc * 10 + (c.toNat - 48)) 0 = 0 := by
    intro k
    induction k with
    | zero => rfl
    | succ k ihk => simpa [List.replicate_succ] using ihk
  rw [hz]
  exact digitsVal_natDigits n

/-- Zero-padded rendering is injective in the rendered number. -/
theorem padNum_injective (w a b : Nat) (h : padNum w a = padNum w b) : a = b := by
  have := congrArg digitsVal h
  rwa [digitsVal_padNum, digitsVal_padNum] at this

/-! ### `fnmatch.fnmatch` (POSIX: case-sensitive glob matching) -/

/-- Scan for the closing `]` of a character class; returns the class body
and the remaining pattern, or `none` when the bracket is unterminated. -/
def findClose : Str → Option (Str × Str)
  | [] => none
  | ']' :: rest => some ([], rest)
  | c :: rest =>
    match findClose rest with
    | none => none
    | some (cls, r) => some (c :: cls, r)

theorem findClose_rest_length (l cls rest : Str)
    (h : findClose l = some (cls, rest)) : rest.length < l.length := by
  induction l generalizing cls with
  | nil => simp [findClose] at h
  | cons c t ih =>
    by_cases hc : c = ']'
    · subst hc
      simp only [findClose] at h
      cases h
      simp
    · rw [show findClose (c :: t) =
        (match findClose t with
          | none => none
          | some (cls, r) => some (c :: cls, r)) from by
          cases t <;> simp [findClose, hc] <;> split <;> simp_all] at h
      rcases h2 : findClose t with _ | ⟨cls2, r2⟩ <;> rw [h2] at h
      · simp at h
      · cases h
        have := ih cls2 h2
        simp
        omega

/-- Parse the character class at the head of the pattern (after `[`):
an optional leading `!` negates; a `]` directly after `[` or `[!` is a
literal member, as in `fnmatch.translate`. -/
def globBracket (ps : Str) : Option (Bool × Str × Str) :=
  match ps with
  | '!' :: ']' :: r2 => (findClose r2).map (fun p => (true, ']' :: p.1, p.2))
  | '!' :: r1 => (findClose r1).map (fun p => (true, p.1, p.2))
  | ']' :: r2 => (findClose r2).map (fun p => (false, ']' :: p.1, p.2))
  | r1 => (findClose r1).map (fun p => (false, p.1, p.2))

theorem globBracket_rest_length (ps : Str) (neg : Bool) (cls rest : Str)
    (h : globBracket ps = some (neg, cls, rest)) : rest.length ≤ ps.length := by
  unfold globBracket at h
  split at h <;>
    (rcases h2 : findClose _ with _ | ⟨c2, r2⟩ <;> rw [h2] at h <;>
      [exact absurd h (by simp);
       (cases h; have := findClose_rest_length _ _ _ h2; simp at this ⊢; omega)])

/-- Membership in a character class body: `a-b` ranges plus literals,
as produced by `fnmatch.translate`. -/
def matchCls : Str → Char → Bool
  | a :: '-' :: b :: rest, c =>
    if b = ']' then (a = c) || matchCls ('-' :: b :: rest) c
    else (decide (a ≤ c) && decide (c ≤ b)) || matchCls rest c
  | a :: rest, c => (a = c) || matchCls rest c
  | [], _ => false

/-- Glob matching with a fuel argument for structural recursion; every
recursive call strictly decreases `name.length * 2 + pat.length`, and the
wrapper `globMatch` passes fuel exceeding that measure, so the `0`-fuel
base is never reached. -/
def globMatchAux : Nat → Str → Str → Bool
  | 0, _, _ => false
  | fuel + 1, pat, name =>
    match pat, name with
    | [], [] => true
    | [], _ :: _ => false
    | '*' :: ps, [] => globMatchAux fuel ps []
    | '*' :: ps, c :: ns =>
      globMatchAux fuel ps (c :: ns) || globMatchAux fuel ('*' :: ps) ns
    | '?' :: _, [] => false
    | '?' :: ps, _ :: ns => globMatchAux fuel ps ns
    | p :: ps, name =>
      if p = '[' then
        match globBracket ps with
        | some (neg, cls, rest) =>
          match name with
          | [] => false
          | c :: ns =>
            (if neg then !(matchCls cls c) else matchCls cls c) &&
              globMatchAux fuel rest ns
        | none =>
          match name with
          | [] => false
          | c :: ns => (c = '[') && globMatchAux fuel ps ns
      else
        match name with
        | [] => false
        | c :: ns => (c = p) && globMatchAux fuel ps ns

/-- `fnmatch.fnmatch(name, pat)` on a POSIX system: `*` matches any run,
`?` any one character, `[...]` a character class, everything else
literally. -/
def globMatch (pat name : Str) : Bool :=
  globMatchAux (name.length * 2 + pat.length + 1) pat name

/-! ### Dates, timestamps and the generated staging names -/

/-- A UTC wall-clock time to second precision (`datetime.utcnow()` with
`microsecond=0`). -/
structure DateTime where
  year : Nat
  month : Nat
  day : Nat
  hour : Nat
  minute : Nat
  second : Nat
deriving DecidableEq, Repr

/-- A calendar date (`datetime.date`). -/
structure Date where
  year : Nat
  month : Nat
  day : Nat
deriving DecidableEq, Repr

/-- `now_utc.date()`. -/
def DateTime.dateOf (t : DateTime) : Date :=
  { year := t.year, month := t.month, day := t.day }

/-- `now_utc.isoformat()` for a microsecond-free datetime:
`YYYY-MM-DDTHH:MM:SS`. -/
def isoBasic (t : DateTime) : Str :=
  padNum 4 t.year ++ '-' :: padNum 2 t.month ++ '-' :: padNum 2 t.day ++
    'T' :: padNum 2 t.hour ++ ':' :: padNum 2 t.minute ++ ':' :: padNum 2 t.second

/-- `ts_str = now_utc.isoformat().replace(":", "-") + "Z"`. -/
def tsString (t : DateTime) : Str := replaceChar ':' '-' (isoBasic t) ++ ['Z']

/-- `batch_str = f"batch{batch_idx:02d}"`. -/
def batchStr (batch_idx : Nat) : Str := str "batch" ++ padNum 2 batch_idx

/-- `f"{file_date:%Y/%m/%d}"` as used in the staging object path. -/
def datePath (d : Date) : Str :=
  padNum 4 d.year ++ '/' :: padNum 2 d.month ++ '/' :: padNum 2 d.day

/-! ### Configuration and the ingestion-log data model -/

/-- The configuration values the two functions read from `CONFIG`
(the `config` module is environment-driven; its values are parameters
here).  `gcs_incoming` models `CONFIG.gcs_incoming_prefix`. -/
structure Config where
  sftp_base_dir : Str
  sftp_file_patterns : List Str
  gcs_bucket_name : Str
  gcs_incoming : Str
  bq_project : Str
  source_system : Str

/-- Metadata the staging store assigns to a written object
(`blob.generation`, `blob.md5_hash`, `blob.size`). -/
structure BlobMeta where
  generation : Option Int
  md5 : Option Str
  size : Option Nat
deriving DecidableEq, Repr

/-- A `storage.Blob` as the lander sees it after upload. -/
structure BlobInfo where
  bucket : Str
  name : Str
  meta : BlobMeta
deriving DecidableEq, Repr

/-- One row of `raw_technical.ingestion_log`, with the columns written by
`_insert_ingestion_log_row` and updated by the loader's two UPDATE
helpers.  Nullable columns are `Option`s. -/
structure LedgerRow where
  file_type : Str
  file_date : Option Date
  source_system : Str
  source_path : Option Str
  gcs_uri : Option Str
  gcs_generation : Option Int
  gcs_md5 : Option Str
  gcs_size_bytes : Option Nat
  target_dataset : Option Str
  target_table : Option Str
  started_at : DateTime
  finished_at : Option DateTime
  status : Str
  load_job_id : Option Str
  error_message : Option Str
deriving DecidableEq, Repr

/-- The ingestion-log table. -/
abbrev Ledger := List LedgerRow

/-! ### `cf_lifefile_sftp_to_gcs.py` -/

/-- The `file_type` derivation inside `_list_matching_files`:
`base = name.split(".")[0]; file_type = base.split("_")[0].lower()`. -/
def deriveFileType (name : Str) : Str :=
  pyLower ((pySplitSep '_' ((pySplitSep '.' name).headI)).headI)

/-- Does `name` match any configured pattern?  Mirrors the inner loop of
`_list_matching_files`: each pattern is stripped, empty patterns are
skipped, and the first `fnmatch` hit ends the loop. -/
def patternHit (patterns : List Str) (name : Str) : Bool :=
  patterns.any (fun p =>
    let p := pyStrip p
    !p.isEmpty && globMatch p name)

/-- `_list_matching_files`: the work list of `(file_type, remote_path)`
pairs for listing entries matching some configured pattern. -/
def _list_matching_files (patterns : List Str) (baseDir : Str) (files : List Str) :
    List (Str × Str) :=
  files.filterMap (fun name =>
    if patternHit patterns name then
      some (deriveFileType name, baseDir ++ '/' :: name)
    else none)

/-- `_generate_new_filename`: the staging file name
`<file_type>_YYYY-MM-DDTHH-MM-SSZ_batchNN.csv.gz` and the logical file
date, from the current UTC time. -/
def _generate_new_filename (file_type : Str) (batch_idx : Nat) (now_utc : DateTime) :
    Str × Date :=
  (file_type ++ '_' :: tsString now_utc ++ '_' :: batchStr batch_idx ++ str ".csv.gz",
    now_utc.dateOf)

/-- The object path `_upload_to_gcs` writes to:
`<GCS_INCOMING_PREFIX>/<file_type>/YYYY/MM/DD/<new_filename>`. -/
def uploadObjectPath (gcs_incoming file_type : Str) (file_date : Date)
    (new_filename : Str) : Str :=
  gcs_incoming ++ '/' :: file_type ++ '/' :: datePath file_date ++ '/' :: new_filename

/-- `_is_source_file_already_uploaded`: a row exists with this
`source_system` and `source_path` and status in `('UPLOADED', 'SUCCESS')`. -/
def _is_source_file_already_uploaded (source_system source_path : Str) (ledger : Ledger) :
    Bool :=
  ledger.any (fun r =>
    r.source_system == source_system && r.source_path == some source_path &&
      (r.status == str "UPLOADED" || r.status == str "SUCCESS"))

/-- The row dict built by `_insert_ingestion_log_row` (the insert appends
this row to the table). -/
def mkIngestionRow (source_system file_type : Str) (file_date : Option Date)
    (source_path : Option Str) (blob : Option BlobInfo) (started_at : DateTime)
    (finished_at : Option DateTime) (status : Str) (error_message : Option Str) :
    LedgerRow :=
  { file_type := file_type
    file_date := file_date
    source_system := source_system
    source_path := source_path
    gcs_uri := blob.map (fun b => str "gs://" ++ b.bucket ++ '/' :: b.name)
    gcs_generation := blob.bind (fun b => b.meta.generation)
    gcs_md5 := blob.bind (fun b => b.meta.md5)
    gcs_size_bytes := blob.bind (fun b => b.meta.size)
    target_dataset := none
    target_table := none
    started_at := started_at
    finished_at := finished_at
    status := status
    load_job_id := none
    error_message := error_message }

/-- Outcome of the SFTP fetch (`sftp.open(...).read()`). -/
inductive FetchOutcome where
  | ok (data : Str)
  | err (msg : Str)

/-- Outcome of `blob.upload_from_string`: on success the storage system
assigns the blob's metadata. -/
inductive UploadOutcome where
  | ok (meta : BlobMeta)
  | err (msg : Str)

/-- The three `dt.datetime.utcnow()` readings taken while processing one
file: at entry, inside `_generate_new_filename`, and at completion. -/
structure ProcTimes where
  started_at : DateTime
  gen_now : DateTime
  finished_at : DateTime

/-- The observable effects of `_process_single_file` on one file: which
remote paths were fetched, which object paths were written, and which
rows were appended to the ingestion log. -/
structure FileTrace where
  fetched : List Str
  uploaded : List Str
  inserted : List LedgerRow
deriving DecidableEq, Repr

/-- `_process_single_file`: download, gzip, name, upload, log — with the
failure handling of its `try`/`except` (a fetch failure logs `FAILED`
with no date and no blob; an upload failure logs `FAILED` with the date
but no blob; success logs `UPLOADED` with the blob). -/
def _process_single_file (cfg : Config) (gzipFn : Str → Str)
    (fetch : Str → FetchOutcome) (upload : Str → Str → UploadOutcome)
    (tm : ProcTimes) (file_type remote_path : Str) (batch_idx : Nat) : FileTrace :=
  match fetch remote_path with
  | .err e =>
    { fetched := [remote_path]
      uploaded := []
      inserted := [mkIngestionRow cfg.source_system file_type none
        (some remote_path) none tm.started_at (some tm.finished_at)
        (str "FAILED") (some e)] }
  | .ok raw_data =>
    let gz_data := gzipFn raw_data
    let nf := _generate_new_filename file_type batch_idx tm.gen_now
    let object_path := uploadObjectPath cfg.gcs_incoming file_type nf.2 nf.1
    match upload object_path gz_data with
    | .err e =>
      { fetched := [remote_path]
        uploaded := [object_path]
        inserted := [mkIngestionRow cfg.source_system file_type (some nf.2)
          (some remote_path) none tm.started_at (some tm.finished_at)
          (str "FAILED") (some e)] }
    | .ok meta =>
      { fetched := [remote_path]
        uploaded := [object_path]
        inserted := [mkIngestionRow cfg.source_system file_type (some nf.2)
          (some remote_path) (some ⟨cfg.gcs_bucket_name, object_path, meta⟩)
          tm.started_at (some tm.finished_at) (str "UPLOADED") none] }

/-- What the run did with one work-list entry. -/
inductive FileAction where
  | skipped
  | processed (batch_idx : Nat) (trace : FileTrace)
deriving DecidableEq, Repr

/-- The per-entry actions of a lander run and the resulting ledger. -/
structure RunResult where
  actions : List (Str × Str × FileAction)
  ledger : Ledger
deriving DecidableEq, Repr

/-- The main loop of `cf_lifefile_sftp_to_gcs`: per work-list entry,
skip when `_is_source_file_already_uploaded`, otherwise increment
`batch_idx` and process; inserted rows accumulate in the ledger. -/
def landerLoop (cfg : Config) (gzipFn : Str → Str) (fetch : Str → FetchOutcome)
    (upload : Str → Str → UploadOutcome) (times : Nat → ProcTimes) :
    List (Str × Str) → Nat → Ledger → RunResult
  | [], _, ledger => { actions := [], ledger := ledger }
  | (file_type, remote_path) :: rest, batch_idx, ledger =>
    if _is_source_file_already_uploaded cfg.source_system remote_path ledger then
      let r := landerLoop cfg gzipFn fetch upload times rest batch_idx ledger
      { actions := (file_type, remote_path, .skipped) :: r.actions
        ledger := r.ledger }
    else
      let idx := batch_idx + 1
      let tr := _process_single_file cfg gzipFn fetch upload (times idx)
        file_type remote_path idx
      let r := landerLoop cfg gzipFn fetch upload times rest idx
        (ledger ++ tr.inserted)
      { actions := (file_type, remote_path, .processed idx tr) :: r.actions
        ledger := r.ledger }

/-- `cf_lifefile_sftp_to_gcs` (the happy path past configuration and
connection checks, which perform no pipeline work): list matching files,
then run the per-file loop starting from `batch_idx = 0`. -/
def cf_lifefile_sftp_to_gcs (cfg : Config) (gzipFn : Str → Str)
    (fetch : Str → FetchOutcome) (upload : Str → Str → UploadOutcome)
    (times : Nat → ProcTimes) (listing : List Str) (ledger : Ledger) : RunResult :=
  landerLoop cfg gzipFn fetch upload times
    (_list_matching_files cfg.sftp_file_patterns cfg.sftp_base_dir listing) 0 ledger

/-! ### `cf_gcs_to_bq_raw.py` -/

/-- `LIFEFILE_RAW_DATASET = "raw_lifefile"`. -/
def LIFEFILE_RAW_DATASET : Str := str "raw_lifefile"

/-- The static routing table `FILETYPE_TO_RAW_TABLE`. -/
def FILETYPE_TO_RAW_TABLE : List (Str × Str) :=
  [(str "payments", str "payments_raw"), (str "providers", str "providers_raw")]

/-- `_parse_file_type_from_object_name`: split the object name on `/`,
require at least prefix + 2 more segments, require the incoming-prefix
segments, take the segment right after them, and accept it only when it
is a key of `FILETYPE_TO_RAW_TABLE`. -/
def _parse_file_type_from_object_name (gcs_incoming object_name : Str) : Option Str :=
  let parts := pySplitSep '/' object_name
  let prefixParts := pySplitSep '/' gcs_incoming
  if parts.length < prefixParts.length + 2 then none
  else if parts.take prefixParts.length ≠ prefixParts then none
  else
    match parts.get? prefixParts.length with
    | none => none
    | some file_type =>
      if (FILETYPE_TO_RAW_TABLE.lookup file_type).isSome then some file_type
      else none

/-- `_is_gcs_object_already_loaded`: a row exists with this `gcs_uri` and
`source_system`, non-null `target_dataset` and `target_table`, and
status `'SUCCESS'`. -/
def _is_gcs_object_already_loaded (source_system gcs_uri : Str) (ledger : Ledger) : Bool :=
  ledger.any (fun r =>
    r.gcs_uri == some gcs_uri && r.source_system == source_system &&
      r.target_dataset.isSome && r.target_table.isSome &&
      r.status == str "SUCCESS")

/-- `_update_ingestion_log_after_load`: the UPDATE setting
`target_dataset`, `target_table`, `load_job_id`, `status`, `finished_at`
and `error_message` on every row matching `gcs_uri` and `source_system`. -/
def _update_ingestion_log_after_load (source_system gcs_uri : Str)
    (target_dataset target_table load_job_id : Option Str) (status : Str)
    (finished_at : DateTime) (error_message : Option Str) (ledger : Ledger) : Ledger :=
  ledger.map (fun r =>
    if r.gcs_uri == some gcs_uri && r.source_system == source_system then
      { r with
        target_dataset := target_dataset
        target_table := target_table
        load_job_id := load_job_id
        status := status
        finished_at := some finished_at
        error_message := error_message }
    else r)

/-- `_update_ingestion_log_error_only`: the UPDATE setting only
`finished_at` and `error_message` on every row matching `gcs_uri` and
`source_system` — `status` is deliberately not touched. -/
def _update_ingestion_log_error_only (source_system gcs_uri : Str)
    (finished_at : DateTime) (error_message : Str) (ledger : Ledger) : Ledger :=
  ledger.map (fun r =>
    if r.gcs_uri == some gcs_uri && r.source_system == source_system then
      { r with
        finished_at := some finished_at
        error_message := some error_message }
    else r)

/-- The GCS finalize event payload fields the function reads. -/
structure StorageEvent where
  bucket : Str
  name : Str
deriving DecidableEq, Repr

/-- The terminal outcome of the BigQuery load job
(`load_table_from_uri` + `result()`): a job id on success, or the
rendering of `repr(e)` for the raised exception. -/
inductive LoadOutcome where
  | ok (job_id : Str)
  | err (e : Str)

/-- Observable effects of one `cf_gcs_to_bq_raw` invocation: bulk-load
submissions `(gcs_uri, raw_table_id)`, the resulting ingestion log, the
staging-store object listing, and any copy/delete operations issued
against the staging store. -/
structure LoadEffects where
  loads : List (Str × Str)
  ledger : Ledger
  storage : List Str
  copies : List (Str × Str)
  deletes : List Str
deriving DecidableEq, Repr

/-- `cf_gcs_to_bq_raw`: bucket filter, incoming-prefix filter, file-type
parse, routing lookup (`none` models the `KeyError` Python would raise
on a missing key), idempotency check, then the load with its
success/failure ledger updates.  `storage` is the set of object names in
the staging bucket; the function never touches it (its `storage_client`
is unused), which the effect record makes visible. -/
def cf_gcs_to_bq_raw (cfg : Config) (event : StorageEvent)
    (loadResult : LoadOutcome) (finished_at : DateTime) (ledger : Ledger)
    (storage : List Str) : Option LoadEffects :=
  if event.bucket ≠ cfg.gcs_bucket_name then
    some { loads := [], ledger := ledger, storage := storage, copies := [], deletes := [] }
  else if ¬ (cfg.gcs_incoming ++ ['/']).isPrefixOf event.name then
    some { loads := [], ledger := ledger, storage := storage, copies := [], deletes := [] }
  else
    let gcs_uri := str "gs://" ++ event.bucket ++ '/' :: event.name
    match _parse_file_type_from_object_name cfg.gcs_incoming event.name with
    | none =>
      some { loads := [], ledger := ledger, storage := storage, copies := [], deletes := [] }
    | some file_type =>
      match FILETYPE_TO_RAW_TABLE.lookup file_type with
      | none => none
      | some raw_table_name =>
        let raw_table_id :=
          cfg.bq_project ++ '.' :: LIFEFILE_RAW_DATASET ++ '.' :: raw_table_name
        if _is_gcs_object_already_loaded cfg.source_system gcs_uri ledger then
          some { loads := [], ledger := ledger, storage := storage,
                 copies := [], deletes := [] }
        else
          match loadResult with
          | .ok job_id =>
            some { loads := [(gcs_uri, raw_table_id)]
                   ledger := _update_ingestion_log_after_load cfg.source_system gcs_uri
                     (some LIFEFILE_RAW_DATASET) (some raw_table_name) (some job_id)
                     (str "SUCCESS") finished_at none ledger
                   storage := storage
                   copies := []
                   deletes := [] }
          | .err e =>
            let err_msg := str "BigQuery load failed for " ++ gcs_uri ++ str ": " ++ e
            some { loads := [(gcs_uri, raw_table_id)]
                   ledger := _update_ingestion_log_error_only cfg.source_system gcs_uri
                     finished_at err_msg ledger
                   storage := storage
                   copies := []
                   deletes := [] }

/-! ### Character-set facts about the generated names -/

theorem mem_replaceChar (old new : Char) (s : Str) (c : Char)
    (h : c ∈ replaceChar old new s) : (c ∈ s ∧ c ≠ old) ∨ c = new := by
  unfold replaceChar at h
  rcases List.mem_map.mp h with ⟨x, hx, hfx⟩
  by_cases hold : x = old
  · right
    rw [← hfx, hold]
    simp
  · left
    have hc : c = x := by rw [← hfx]; simp [hold]
    subst hc
    exact ⟨hx, hold⟩

theorem mem_isoBasic (t : DateTime) (c : Char) (h : c ∈ isoBasic t) :
    (48 ≤ c.toNat ∧ c.toNat ≤ 57) ∨ c = '-' ∨ c = 'T' ∨ c = ':' := by
  unfold isoBasic at h
  simp only [List.mem_append, List.mem_cons] at h
  rcases h with ((((h | rfl | h) | rfl | h) | rfl | h) | rfl | h) | rfl | h <;>
    first
      | exact Or.inl (padNum_range _ _ c h)
      | decide

theorem not_mem_tsString (t : DateTime) (c : Char)
    (h48 : c.toNat < 48 ∨ 57 < c.toNat)
    (hdash : c ≠ '-') (hT : c ≠ 'T') (hZ : c ≠ 'Z') : c ∉ tsString t := by
  intro hm
  unfold tsString at hm
  rcases List.mem_append.mp hm with h1 | h2
  · rcases mem_replaceChar _ _ _ _ h1 with ⟨hiso, hcol⟩ | rfl
    · rcases mem_isoBasic t c hiso with hr | rfl | rfl | rfl
      · omega
      · exact hdash rfl
      · exact hT rfl
      · exact hcol rfl
    · exact hdash rfl
  · simp only [List.mem_singleton] at h2
    exact hZ h2

theorem mem_batchStr (i : Nat) (c : Char) (h : c ∈ batchStr i) :
    (48 ≤ c.toNat ∧ c.toNat ≤ 57) ∨ c ∈ str "batch" := by
  unfold batchStr at h
  rcases List.mem_append.mp h with h1 | h2
  · exact Or.inr h1
  · exact Or.inl (padNum_range _ _ c h2)

/-- Characters excluded from the whole `batchNN.csv.gz` suffix. -/
theorem not_mem_batchTail (i : Nat) (c : Char)
    (h48 : c.toNat < 48 ∨ 57 < c.toNat)
    (hlit : c ∉ str "batch" ++ str ".csv.gz") :
    c ∉ batchStr i ++ str ".csv.gz" := by
  intro hm
  rcases List.mem_append.mp hm with h1 | h2
  · rcases mem_batchStr i c h1 with hr | hb
    · omega
    · exact hlit (List.mem_append.mpr (Or.inl hb))
  · exact hlit (List.mem_append.mpr (Or.inr h2))

theorem slash_not_mem_tsString (t : DateTime) : '/' ∉ tsString t :=
  not_mem_tsString t '/' (by decide) (by decide) (by decide) (by decide)

theorem underscore_not_mem_tsString (t : DateTime) : '_' ∉ tsString t :=
  not_mem_tsString t '_' (by decide) (by decide) (by decide) (by decide)

theorem dot_not_mem_tsString (t : DateTime) : '.' ∉ tsString t :=
  not_mem_tsString t '.' (by decide) (by decide) (by decide) (by decide)

theorem slash_not_mem_batchTail (i : Nat) : '/' ∉ batchStr i ++ str ".csv.gz" :=
  not_mem_batchTail i '/' (by decide) (by decide)

theorem underscore_not_mem_batchTail (i : Nat) : '_' ∉ batchStr i ++ str ".csv.gz" :=
  not_mem_batchTail i '_' (by decide) (by decide)

theorem slash_not_mem_padNum (w n : Nat) : '/' ∉ padNum w n := by
  intro h
  have := padNum_range w n _ h
  revert this
  decide

/-- A generated staging file name contains no `/` when its file type
contains none. -/
theorem slash_not_mem_genName (ft : Str) (i : Nat) (t : DateTime)
    (hft : '/' ∉ ft) : '/' ∉ (_generate_new_filename ft i t).1 := by
  intro h
  unfold _generate_new_filename at h
  simp only [List.mem_append, List.mem_cons] at h
  rcases h with ((h | h | h) | h | h) | h
  · exact hft h
  · exact absurd h (by decide)
  · exact slash_not_mem_tsString t h
  · exact absurd h (by decide)
  · exact slash_not_mem_batchTail i (List.mem_append.mpr (Or.inl h))
  · exact slash_not_mem_batchTail i (List.mem_append.mpr (Or.inr h))

/-! ### Parsing a lander-produced object path -/

/-- Splitting a lander-produced object path on `/` yields the
incoming-prefix segments followed by the file type, the three date
segments, and the file name. -/
theorem pySplitSep_uploadObjectPath (gcs_incoming ft : Str) (d : Date) (fn : Str)
    (hft : '/' ∉ ft) (hfn : '/' ∉ fn) :
    pySplitSep '/' (uploadObjectPath gcs_incoming ft d fn) =
      pySplitSep '/' gcs_incoming ++
        [ft, padNum 4 d.year, padNum 2 d.month, padNum 2 d.day, fn] := by
  have hpath : uploadObjectPath gcs_incoming ft d fn =
      gcs_incoming ++ '/' :: (ft ++ '/' :: (padNum 4 d.year ++ '/' ::
        (padNum 2 d.month ++ '/' :: (padNum 2 d.day ++ '/' :: fn)))) := by
    simp [uploadObjectPath, datePath]
  rw [hpath, pySplitSep_append, pySplitSep_append, pySplitSep_no_sep '/' ft hft,
    pySplitSep_append, pySplitSep_no_sep '/' _ (slash_not_mem_padNum 4 d.year),
    pySplitSep_append, pySplitSep_no_sep '/' _ (slash_not_mem_padNum 2 d.month),
    pySplitSep_append, pySplitSep_no_sep '/' _ (slash_not_mem_padNum 2 d.day),
    pySplitSep_no_sep '/' fn hfn]
  simp

/-- The loader's path parse on a lander-produced object path recovers
the file type exactly when it is routable. -/
theorem parse_uploadObjectPath (gcs_incoming ft : Str) (d : Date) (fn : Str)
    (hft : '/' ∉ ft) (hfn : '/' ∉ fn) :
    _parse_file_type_from_object_name gcs_incoming (uploadObjectPath gcs_incoming ft d fn) =
      if (FILETYPE_TO_RAW_TABLE.lookup ft).isSome then some ft else none := by
  simp only [_parse_file_type_from_object_name]
  rw [pySplitSep_uploadObjectPath gcs_incoming ft d fn hft hfn]
  have hlen : (pySplitSep '/' gcs_incoming ++
      [ft, padNum 4 d.year, padNum 2 d.month, padNum 2 d.day, fn]).length =
      (pySplitSep '/' gcs_incoming).length + 5 := by
    simp
  rw [hlen, if_neg (by omega), List.take_left]
  simp only [ne_eq, not_true_eq_false, if_false]
  rw [List.get?_append_right (Nat.le_refl _), Nat.sub_self]
  rfl

/-- A parse that returns a file type only returns keys of the routing
table (the `in FILETYPE_TO_RAW_TABLE` guard). -/
theorem parse_isSome_lookup (gcs_incoming object_name : Str) (ft : Str)
    (h : _parse_file_type_from_object_name gcs_incoming object_name = some ft) :
    (FILETYPE_TO_RAW_TABLE.lookup ft).isSome := by
  simp only [_parse_file_type_from_object_name] at h
  split at h
  · exact absurd h (by simp)
  · split at h
    · exact absurd h (by simp)
    · split at h
      · exact absurd h (by simp)
      · split at h
        · rename_i hsome
          cases h
          exact hsome
        · exact absurd h (by simp)

/-- The routing table has exactly the keys `payments` and `providers`. -/
theorem lookup_isSome_keys (ft : Str) (h : (FILETYPE_TO_RAW_TABLE.lookup ft).isSome) :
    ft = str "payments" ∨ ft = str "providers" := by
  by_cases h1 : ft = str "payments"
  · exact Or.inl h1
  · by_cases h2 : ft = str "providers"
    · exact Or.inr h2
    · exfalso
      unfold FILETYPE_TO_RAW_TABLE at h
      have hb1 : (ft == str "payments") = false := beq_eq_false_iff_ne.mpr h1
      have hb2 : (ft == str "providers") = false := beq_eq_false_iff_ne.mpr h2
      simp only [List.lookup, hb1, hb2] at h
      simp at h

theorem dot_not_mem_batchStr (i : Nat) : '.' ∉ batchStr i := by
  intro h
  rcases mem_batchStr i _ h with hr | hb
  · revert hr; decide
  · revert hb; decide

theorem underscore_not_mem_batchStr (i : Nat) : '_' ∉ batchStr i := by
  intro h
  rcases mem_batchStr i _ h with hr | hb
  · revert hr; decide
  · revert hb; decide

/-- The extractor's filename-based derivation applied to a generated
staging file name recovers the file type, provided the type has no `.`
or `_` and is already lower-case. -/
theorem deriveFileType_genName (ft : Str) (i : Nat) (t : DateTime)
    (hdot : '.' ∉ ft) (hus : '_' ∉ ft) (hlower : pyLower ft = ft) :
    deriveFileType (_generate_new_filename ft i t).1 = ft := by
  have hshape : (_generate_new_filename ft i t).1 =
      (ft ++ '_' :: (tsString t ++ '_' :: batchStr i)) ++ '.' :: str "csv.gz" := by
    have hcsv : str ".csv.gz" = '.' :: str "csv.gz" := rfl
    simp [_generate_new_filename, hcsv]
  have hnodotA : '.' ∉ ft ++ '_' :: (tsString t ++ '_' :: batchStr i) := by
    intro hm
    simp only [List.mem_append, List.mem_cons] at hm
    rcases hm with hm | hm | hm | hm | hm
    · exact hdot hm
    · exact absurd hm (by decide)
    · exact dot_not_mem_tsString t hm
    · exact absurd hm (by decide)
    · exact dot_not_mem_batchStr i hm
  unfold deriveFileType
  rw [hshape, pySplitSep_headI '.' _ _ hnodotA,
    pySplitSep_headI '_' ft _ hus, hlower]

/-- C8: for every staging object name the lander produces with a
routable file type, the loader's path-based derivation and the
extractor's filename-based derivation agree (both yield the type). -/
theorem C8_filetype_derivations_agree (gcs_incoming ft : Str) (d : Date)
    (t : DateTime) (i : Nat) (h : (FILETYPE_TO_RAW_TABLE.lookup ft).isSome) :
    _parse_file_type_from_object_name gcs_incoming
        (uploadObjectPath gcs_incoming ft d (_generate_new_filename ft i t).1) =
      some ft ∧
    deriveFileType (_generate_new_filename ft i t).1 = ft := by
  rcases lookup_isSome_keys ft h with rfl | rfl <;>
    refine ⟨?_, deriveFileType_genName _ i t (by decide) (by decide) (by decide)⟩ <;>
    rw [parse_uploadObjectPath _ _ d _ (by decide)
      (slash_not_mem_genName _ i t (by decide)), if_pos (by decide)]

theorem C8_filetype_derivations_agree_witness :
    _parse_file_type_from_object_name (str "raw/incoming")
        (uploadObjectPath (str "raw/incoming") (str "payments") ⟨2025, 11, 15⟩
          (_generate_new_filename (str "payments") 1 ⟨2025, 11, 15, 23, 45, 3⟩).1) =
      some (str "payments") ∧
    deriveFileType (_generate_new_filename (str "payments") 1
      ⟨2025, 11, 15, 23, 45, 3⟩).1 = str "payments" :=
  C8_filetype_derivations_agree (str "raw/incoming") (str "payments")
    ⟨2025, 11, 15⟩ ⟨2025, 11, 15, 23, 45, 3⟩ 1 (by decide)

/-- C10: a parsed file type is always a key of the routing table, so the
loader's destination lookup is always defined and the function never
reaches the lookup-failure (`KeyError`) outcome. -/
theorem C10_routing_lookup_never_fails :
    (∀ gcs_incoming object_name ft,
      _parse_file_type_from_object_name gcs_incoming object_name = some ft →
        (FILETYPE_TO_RAW_TABLE.lookup ft).isSome) ∧
    (∀ cfg event loadResult finished_at ledger storage,
      (cf_gcs_to_bq_raw cfg event loadResult finished_at ledger storage).isSome) := by
  refine ⟨parse_isSome_lookup, ?_⟩
  intro cfg event loadResult finished_at ledger storage
  simp only [cf_gcs_to_bq_raw]
  split
  · simp
  split
  · simp
  split
  · simp
  rename_i ft hp
  split
  · rename_i hlk
    exfalso
    have hs := parse_isSome_lookup _ _ _ hp
    rw [hlk] at hs
    simp at hs
  · split
    · simp
    · split <;> simp

theorem C10_routing_lookup_never_fails_witness :
    (FILETYPE_TO_RAW_TABLE.lookup (str "payments")).isSome ∧
    (cf_gcs_to_bq_raw
      ⟨str "/outgoing", [], str "lifefile-raw", str "raw/incoming", str "p", str "lifefile"⟩
      ⟨str "lifefile-raw", str "raw/incoming/payments/2025/11/15/payments_x.csv.gz"⟩
      (.ok (str "job1")) ⟨2025, 11, 15, 23, 50, 0⟩ [] []).isSome :=
  ⟨C10_routing_lookup_never_fails.1 (str "raw/incoming")
      (str "raw/incoming/payments/2025/11/15/payments_x.csv.gz") (str "payments")
      (by decide),
    C10_routing_lookup_never_fails.2 _ _ _ _ _ _⟩

/-! ### Frame and failure-path properties of the loader -/

/-- The landing evidence of a row: status, object reference and
fingerprint, source path, file type, start time. -/
def landingFrame (r : LedgerRow) :
    Str × Option Str × Option Int × Option Str × Option Nat ×
      Option Str × Str × DateTime :=
  (r.status, r.gcs_uri, r.gcs_generation, r.gcs_md5, r.gcs_size_bytes,
    r.source_path, r.file_type, r.started_at)

/-- The failure-path UPDATE preserves every row's landing evidence. -/
theorem errorOnly_map_landingFrame (ss uri : Str) (fin : DateTime) (msg : Str)
    (L : Ledger) :
    (_update_ingestion_log_error_only ss uri fin msg L).map landingFrame =
      L.map landingFrame := by
  unfold _update_ingestion_log_error_only
  rw [List.map_map]
  apply List.map_congr_left
  intro r _
  simp only [Function.comp]
  split <;> rfl

/-- C6: a load failure leaves the landing evidence of every
ingestion-log row unchanged — status, gcs_uri, gcs_generation, gcs_md5,
gcs_size_bytes, source_path, file_type and started_at keep their prior
values; only error-message and timestamp fields are touched (and no
job id is written). -/
theorem C6_failure_preserves_landing_evidence (cfg : Config)
    (event : StorageEvent) (e : Str) (finished_at : DateTime) (ledger : Ledger)
    (storage : List Str) :
    (cf_gcs_to_bq_raw cfg event (.err e) finished_at ledger storage).map
        (fun eff => eff.ledger.map landingFrame) =
      some (ledger.map landingFrame) := by
  simp only [cf_gcs_to_bq_raw]
  split
  · rfl
  split
  · rfl
  split
  · rfl
  rename_i ft hp
  split
  · rename_i hlk
    exfalso
    have hs := parse_isSome_lookup _ _ _ hp
    rw [hlk] at hs
    simp at hs
  · split
    · rfl
    · simp [errorOnly_map_landingFrame]

/-! ### Concrete fixtures -/

/-- A configuration with the values the module docstrings use as
examples. -/
def cfgFixture : Config :=
  { sftp_base_dir := str "/outgoing"
    sftp_file_patterns := [str "payments*.csv", str "providers*.csv"]
    gcs_bucket_name := str "lifefile-raw"
    gcs_incoming := str "raw/incoming"
    bq_project := str "p"
    source_system := str "lifefile" }

/-- The finalize event for a staged payments object. -/
def eventFixture : StorageEvent :=
  { bucket := str "lifefile-raw"
    name := str "raw/incoming/payments/2025/11/15/payments_2025-11-15T23-45-03Z_batch01.csv.gz" }

/-- The ingestion-log row the lander writes after successfully landing
that payments object (status `UPLOADED`, load columns still null). -/
def uploadedRowFixture : LedgerRow :=
  { file_type := str "payments"
    file_date := some ⟨2025, 11, 15⟩
    source_system := str "lifefile"
    source_path := some (str "/outgoing/payments_2025-11-15.csv")
    gcs_uri := some (str "gs://lifefile-raw/raw/incoming/payments/2025/11/15/payments_2025-11-15T23-45-03Z_batch01.csv.gz")
    gcs_generation := some 17
    gcs_md5 := some (str "3q2+7w==")
    gcs_size_bytes := some 1234
    target_dataset := none
    target_table := none
    started_at := ⟨2025, 11, 15, 23, 45, 0⟩
    finished_at := some ⟨2025, 11, 15, 23, 45, 3⟩
    status := str "UPLOADED"
    load_job_id := none
    error_message := none }

/-! ### C1: what the failure path records -/

/-- C1 (counterexample): after `cf_gcs_to_bq_raw` handles a load
failure for a landed object, the matching ingestion-log row's status is
still `UPLOADED`, not `FAILED` — the failure path never writes a
`FAILED` status (and no job id). -/
theorem C1_counterexample_status_not_failed :
    (cf_gcs_to_bq_raw cfgFixture eventFixture (.err (str "boom"))
        ⟨2025, 11, 15, 23, 50, 0⟩ [uploadedRowFixture] []).map
        (fun eff => eff.ledger.map LedgerRow.status) =
      some [str "UPLOADED"] ∧
    str "UPLOADED" ≠ str "FAILED" := by
  constructor
  · decide
  · decide

/-- C1 (amended): after the loader handles a load failure, the
ingestion-log row matching `(source_system, gcs_uri)` keeps its prior
status — no `FAILED` status and no job id are recorded — and only
`error_message` (set to the error text) and `finished_at` are updated. -/
theorem C1_amended_failure_keeps_status (cfg : Config) (event : StorageEvent)
    (e : Str) (t : DateTime) (L : Ledger) (storage : List Str) (r : LedgerRow)
    (ft : Str)
    (h1 : event.bucket = cfg.gcs_bucket_name)
    (h2 : (cfg.gcs_incoming ++ ['/']).isPrefixOf event.name = true)
    (h3 : _parse_file_type_from_object_name cfg.gcs_incoming event.name = some ft)
    (h4 : _is_gcs_object_already_loaded cfg.source_system
      (str "gs://" ++ event.bucket ++ '/' :: event.name) L = false)
    (hr : r ∈ L)
    (hru : r.gcs_uri = some (str "gs://" ++ event.bucket ++ '/' :: event.name))
    (hrs : r.source_system = cfg.source_system) :
    ∃ eff, cf_gcs_to_bq_raw cfg event (.err e) t L storage = some eff ∧
      { r with
        finished_at := some t
        error_message := some (str "BigQuery load failed for " ++
          (str "gs://" ++ event.bucket ++ '/' :: event.name) ++ str ": " ++ e) }
        ∈ eff.ledger := by
  obtain ⟨tbl, htbl⟩ := Option.isSome_iff_exists.mp (parse_isSome_lookup _ _ _ h3)
  simp only [cf_gcs_to_bq_raw, h3, htbl]
  rw [if_neg (by simp [h1]), if_neg (by simp [h2]), if_neg (by simpa using h4)]
  refine ⟨_, rfl, ?_⟩
  unfold _update_ingestion_log_error_only
  apply List.mem_map.mpr
  refine ⟨r, hr, ?_⟩
  simp [hru, hrs]

theorem C1_amended_failure_keeps_status_witness :
    ∃ eff, cf_gcs_to_bq_raw cfgFixture eventFixture (.err (str "boom"))
        ⟨2025, 11, 15, 23, 50, 0⟩ [uploadedRowFixture] [] = some eff ∧
      { uploadedRowFixture with
        finished_at := some ⟨2025, 11, 15, 23, 50, 0⟩
        error_message := some (str "BigQuery load failed for " ++
          (str "gs://" ++ eventFixture.bucket ++ '/' :: eventFixture.name) ++
          str ": " ++ str "boom") } ∈ eff.ledger :=
  C1_amended_failure_keeps_status cfgFixture eventFixture (str "boom")
    ⟨2025, 11, 15, 23, 50, 0⟩ [uploadedRowFixture] [] uploadedRowFixture
    (str "payments") (by decide) (by decide) (by decide) (by decide)
    (by decide) (by decide) (by decide)

/-! ### C2: archival -/

/-- C2 (counterexample): after a successful load of the staged payments
object, the staging store is unchanged — the object is still at its
incoming location and no copy or delete was issued, so it never appears
at a processed location. -/
theorem C2_counterexample_no_relocation :
    (cf_gcs_to_bq_raw cfgFixture eventFixture (.ok (str "job1"))
        ⟨2025, 11, 15, 23, 50, 0⟩ [uploadedRowFixture] [eventFixture.name]).map
        (fun eff => (eff.storage, eff.copies, eff.deletes)) =
      some ([eventFixture.name], [], []) := by
  decide

/-- C2 (amended): `cf_gcs_to_bq_raw` performs no archival at all: every
invocation — successful or failed load alike — leaves the staging store
unchanged and issues no copy and no delete, so the staged object remains
exactly at its incoming location in both cases. -/
theorem C2_amended_loader_never_archives (cfg : Config) (event : StorageEvent)
    (loadResult : LoadOutcome) (finished_at : DateTime) (ledger : Ledger)
    (storage : List Str) :
    (cf_gcs_to_bq_raw cfg event loadResult finished_at ledger storage).map
        (fun eff => (eff.storage, eff.copies, eff.deletes)) =
      some (storage, [], []) := by
  simp only [cf_gcs_to_bq_raw]
  split
  · rfl
  split
  · rfl
  split
  · rfl
  rename_i ft hp
  split
  · rename_i hlk
    exfalso
    have hs := parse_isSome_lookup _ _ _ hp
    rw [hlk] at hs
    simp at hs
  · split
    · rfl
    · split <;> rfl

/-! ### C4: loading idempotency -/

/-- The ingestion-log row fixture after the loader recorded a
successful load (SUCCESS, non-null targets and job id). -/
def successRowFixture : LedgerRow :=
  { uploadedRowFixture with
    target_dataset := some (str "raw_lifefile")
    target_table := some (str "payments_raw")
    load_job_id := some (str "job1")
    status := str "SUCCESS"
    finished_at := some ⟨2025, 11, 15, 23, 50, 0⟩ }

/-- C4: loading is idempotent per `(source_system, gcs_uri)`.  First
conjunct: whenever a ledger row with that key, non-null target dataset
and table, and status SUCCESS exists, any notification for the object
returns without submitting a load, without updating the ledger, and
without archival.  Second conjunct: a first successful notification
submits exactly one load and leaves the ledger in a state where that
guard holds, so across the two notifications exactly one bulk load is
submitted. -/
theorem C4_load_idempotent :
    (∀ (cfg : Config) (event : StorageEvent) (loadResult : LoadOutcome)
        (t : DateTime) (L : Ledger) (storage : List Str),
      _is_gcs_object_already_loaded cfg.source_system
          (str "gs://" ++ event.bucket ++ '/' :: event.name) L = true →
      cf_gcs_to_bq_raw cfg event loadResult t L storage =
        some { loads := [], ledger := L, storage := storage,
               copies := [], deletes := [] }) ∧
    (∀ (cfg : Config) (event : StorageEvent) (job : Str) (t : DateTime)
        (L : Ledger) (storage : List Str) (r : LedgerRow) (ft : Str),
      event.bucket = cfg.gcs_bucket_name →
      (cfg.gcs_incoming ++ ['/']).isPrefixOf event.name = true →
      _parse_file_type_from_object_name cfg.gcs_incoming event.name = some ft →
      _is_gcs_object_already_loaded cfg.source_system
          (str "gs://" ++ event.bucket ++ '/' :: event.name) L = false →
      r ∈ L →
      r.gcs_uri = some (str "gs://" ++ event.bucket ++ '/' :: event.name) →
      r.source_system = cfg.source_system →
      ∃ eff1, cf_gcs_to_bq_raw cfg event (.ok job) t L storage = some eff1 ∧
        eff1.loads.length = 1 ∧
        _is_gcs_object_already_loaded cfg.source_system
          (str "gs://" ++ event.bucket ++ '/' :: event.name) eff1.ledger = true) := by
  constructor
  · intro cfg event loadResult t L storage hL
    simp only [cf_gcs_to_bq_raw]
    split
    · rfl
    split
    · rfl
    split
    · rfl
    rename_i ft hp
    obtain ⟨tbl, htbl⟩ := Option.isSome_iff_exists.mp (parse_isSome_lookup _ _ _ hp)
    simp only [htbl]
  · intro cfg event job t L storage r ft h1 h2 h3 hnot hr hru hrs
    obtain ⟨tbl, htbl⟩ := Option.isSome_iff_exists.mp (parse_isSome_lookup _ _ _ h3)
    simp only [cf_gcs_to_bq_raw, h3, htbl]
    rw [if_neg (by simp [h1]), if_neg (by simp [h2]), if_neg (by simpa using hnot)]
    refine ⟨_, rfl, by simp, ?_⟩
    unfold _is_gcs_object_already_loaded _update_ingestion_log_after_load
    apply List.any_eq_true.mpr
    refine ⟨_, List.mem_map_of_mem _ hr, ?_⟩
    simp [hru, hrs]

theorem C4_load_idempotent_witness :
    (cf_gcs_to_bq_raw cfgFixture eventFixture (.ok (str "job2"))
        ⟨2025, 11, 16, 0, 0, 0⟩ [successRowFixture] [] =
      some { loads := [], ledger := [successRowFixture], storage := [],
             copies := [], deletes := [] }) ∧
    (∃ eff1, cf_gcs_to_bq_raw cfgFixture eventFixture (.ok (str "job1"))
        ⟨2025, 11, 15, 23, 50, 0⟩ [uploadedRowFixture] [] = some eff1 ∧
      eff1.loads.length = 1 ∧
      _is_gcs_object_already_loaded cfgFixture.source_system
        (str "gs://" ++ eventFixture.bucket ++ '/' :: eventFixture.name)
        eff1.ledger = true) :=
  ⟨C4_load_idempotent.1 cfgFixture eventFixture (.ok (str "job2"))
      ⟨2025, 11, 16, 0, 0, 0⟩ [successRowFixture] [] (by decide),
    C4_load_idempotent.2 cfgFixture eventFixture (str "job1")
      ⟨2025, 11, 15, 23, 50, 0⟩ [uploadedRowFixture] [] uploadedRowFixture
      (str "payments") (by decide) (by decide) (by decide) (by decide)
      (by decide) (by decide) (by decide)⟩

/-! ### C3: landing idempotency -/

/-- The ledger rows recorded for a given source path. -/
def rowsForSource (source_path : Str) (L : Ledger) : Ledger :=
  L.filter (fun r => r.source_path == some source_path)

/-- Every SFTP fetch call performed across the actions of a run. -/
def actionFetches : List (Str × Str × FileAction) → List Str
  | [] => []
  | a :: rest =>
    (match a.2.2 with
      | .processed _ tr => tr.fetched
      | .skipped => []) ++ actionFetches rest

/-- The landed-check is monotone under appending rows. -/
theorem alreadyUploaded_append (ss p : Str) (L extra : Ledger)
    (h : _is_source_file_already_uploaded ss p L = true) :
    _is_source_file_already_uploaded ss p (L ++ extra) = true := by
  unfold _is_source_file_already_uploaded at *
  rw [List.any_append, h]
  rfl

/-- Whatever the outcomes, processing one file fetches exactly its
remote path. -/
theorem process_fetched (cfg : Config) (gz : Str → Str)
    (fetch : Str → FetchOutcome) (upload : Str → Str → UploadOutcome)
    (tm : ProcTimes) (ft p : Str) (idx : Nat) :
    (_process_single_file cfg gz fetch upload tm ft p idx).fetched = [p] := by
  unfold _process_single_file
  split
  · rfl
  · dsimp only
    split <;> rfl

/-- Whatever the outcomes, the rows processing one file inserts carry
that file's source path. -/
theorem process_inserted_source_path (cfg : Config) (gz : Str → Str)
    (fetch : Str → FetchOutcome) (upload : Str → Str → UploadOutcome)
    (tm : ProcTimes) (ft p : Str) (idx : Nat) :
    ∀ row ∈ (_process_single_file cfg gz fetch upload tm ft p idx).inserted,
      row.source_path = some p := by
  unfold _process_single_file
  split
  · intro row hrow
    simp only [List.mem_singleton] at hrow
    subst hrow
    rfl
  · dsimp only
    split <;>
      (intro row hrow
       simp only [List.mem_singleton] at hrow
       subst hrow
       rfl)

theorem rowsForSource_append_other (p : Str) (L extra : Ledger)
    (h : ∀ row ∈ extra, row.source_path ≠ some p) :
    rowsForSource p (L ++ extra) = rowsForSource p L := by
  unfold rowsForSource
  rw [List.filter_append]
  have hnil : extra.filter (fun r => r.source_path == some p) = [] := by
    apply List.filter_eq_nil.mpr
    intro r hr
    simpa using h r hr
  rw [hnil, List.append_nil]

/-- Unfolding of the loop on an empty work list. -/
theorem landerLoop_nil (cfg : Config) (gz : Str → Str)
    (fetch : Str → FetchOutcome) (upload : Str → Str → UploadOutcome)
    (times : Nat → ProcTimes) (idx : Nat) (L : Ledger) :
    landerLoop cfg gz fetch upload times [] idx L =
      { actions := [], ledger := L } := rfl

/-- Unfolding of the loop on a work-list entry. -/
theorem landerLoop_cons (cfg : Config) (gz : Str → Str)
    (fetch : Str → FetchOutcome) (upload : Str → Str → UploadOutcome)
    (times : Nat → ProcTimes) (ft' p' : Str) (rest : List (Str × Str))
    (idx : Nat) (L : Ledger) :
    landerLoop cfg gz fetch upload times ((ft', p') :: rest) idx L =
      if _is_source_file_already_uploaded cfg.source_system p' L then
        { actions := (ft', p', .skipped) ::
            (landerLoop cfg gz fetch upload times rest idx L).actions
          ledger := (landerLoop cfg gz fetch upload times rest idx L).ledger }
      else
        { actions := (ft', p', .processed (idx + 1)
            (_process_single_file cfg gz fetch upload (times (idx + 1))
              ft' p' (idx + 1))) ::
            (landerLoop cfg gz fetch upload times rest (idx + 1)
              (L ++ (_process_single_file cfg gz fetch upload (times (idx + 1))
                ft' p' (idx + 1)).inserted)).actions
          ledger := (landerLoop cfg gz fetch upload times rest (idx + 1)
              (L ++ (_process_single_file cfg gz fetch upload (times (idx + 1))
                ft' p' (idx + 1)).inserted)).ledger } := by
  rw [landerLoop]

/-- The core of landing idempotency: starting from a ledger where
`source_path` is already recorded as landed, the loop skips every
work-list entry with that path, fetches it zero times, and its recorded
rows are exactly the prior ones. -/
theorem landerLoop_skips (cfg : Config) (gz : Str → Str)
    (fetch : Str → FetchOutcome) (upload : Str → Str → UploadOutcome)
    (times : Nat → ProcTimes) (wl : List (Str × Str)) (idx : Nat) (L : Ledger)
    (p : Str)
    (h : _is_source_file_already_uploaded cfg.source_system p L = true) :
    (∀ ft act,
      (ft, p, act) ∈ (landerLoop cfg gz fetch upload times wl idx L).actions →
        act = .skipped) ∧
    rowsForSource p (landerLoop cfg gz fetch upload times wl idx L).ledger =
      rowsForSource p L ∧
    p ∉ actionFetches (landerLoop cfg gz fetch upload times wl idx L).actions := by
  induction wl generalizing idx L with
  | nil =>
    rw [landerLoop_nil]
    exact ⟨by simp, rfl, by simp [actionFetches]⟩
  | cons hd rest ih =>
    obtain ⟨ft', p'⟩ := hd
    rw [landerLoop_cons]
    by_cases hskip :
        _is_source_file_already_uploaded cfg.source_system p' L = true
    · rw [if_pos hskip]
      obtain ⟨ih1, ih2, ih3⟩ := ih idx L h
      refine ⟨?_, ih2, ?_⟩
      · intro ft act hmem
        simp only [List.mem_cons, Prod.mk.injEq] at hmem
        rcases hmem with ⟨_, _, hact⟩ | hmem
        · exact hact
        · exact ih1 ft act hmem
      · intro hmem
        dsimp only at hmem
        simp only [actionFetches, List.nil_append] at hmem
        exact ih3 hmem
    · rw [if_neg hskip]
      have hne : p' ≠ p := fun he => hskip (he ▸ h)
      have hins : ∀ row ∈ (_process_single_file cfg gz fetch upload
          (times (idx + 1)) ft' p' (idx + 1)).inserted,
          row.source_path ≠ some p := by
        intro row hrow he
        rw [process_inserted_source_path cfg gz fetch upload _ ft' p' _ row hrow]
          at he
        exact hne (by injection he)
      have h' : _is_source_file_already_uploaded cfg.source_system p
          (L ++ (_process_single_file cfg gz fetch upload (times (idx + 1))
            ft' p' (idx + 1)).inserted) = true :=
        alreadyUploaded_append _ _ _ _ h
      obtain ⟨ih1, ih2, ih3⟩ := ih (idx + 1) _ h'
      refine ⟨?_, ?_, ?_⟩
      · intro ft act hmem
        simp only [List.mem_cons, Prod.mk.injEq] at hmem
        rcases hmem with ⟨_, hp, _⟩ | hmem
        · exact absurd hp.symm hne
        · exact ih1 ft act hmem
      · rw [ih2, rowsForSource_append_other p L _ hins]
      · intro hmem
        dsimp only at hmem
        simp only [actionFetches] at hmem
        rcases List.mem_append.mp hmem with hmem | hmem
        · rw [process_fetched] at hmem
          simp only [List.mem_singleton] at hmem
          exact hne hmem.symm
        · exact ih3 hmem

/-- C3: landing is idempotent per source path.  When a ledger row with
this `(source_system, source_path)` and a landed-or-success status
already exists, a run presented with the same path again skips it
(performs zero fetch and zero upload calls for that file) and records no
further ledger row for it, so its recorded rows are exactly the prior
ones. -/
theorem C3_landing_idempotent (cfg : Config) (gz : Str → Str)
    (fetch : Str → FetchOutcome) (upload : Str → Str → UploadOutcome)
    (times : Nat → ProcTimes) (listing : List Str) (L : Ledger) (p : Str)
    (h : _is_source_file_already_uploaded cfg.source_system p L = true) :
    (∀ ft act,
      (ft, p, act) ∈
        (cf_lifefile_sftp_to_gcs cfg gz fetch upload times listing L).actions →
        act = .skipped) ∧
    rowsForSource p
        (cf_lifefile_sftp_to_gcs cfg gz fetch upload times listing L).ledger =
      rowsForSource p L ∧
    p ∉ actionFetches
        (cf_lifefile_sftp_to_gcs cfg gz fetch upload times listing L).actions := by
  unfold cf_lifefile_sftp_to_gcs
  exact landerLoop_skips cfg gz fetch upload times _ 0 L p h

/-- A trivial content transform and fixed collaborator outcomes for
concrete runs. -/
def gzFixture : Str → Str := fun s => s

def fetchFixture : Str → FetchOutcome := fun _ => .ok (str "csvdata")

def uploadFixture : Str → Str → UploadOutcome :=
  fun _ _ => .ok ⟨some 17, some (str "3q2+7w=="), some 1234⟩

def timesFixture : Nat → ProcTimes :=
  fun _ => ⟨⟨2025, 11, 15, 23, 45, 0⟩, ⟨2025, 11, 15, 23, 45, 3⟩,
    ⟨2025, 11, 15, 23, 45, 5⟩⟩

theorem C3_landing_idempotent_witness :
    rowsForSource (str "/outgoing/payments_2025-11-15.csv")
        (cf_lifefile_sftp_to_gcs cfgFixture gzFixture fetchFixture uploadFixture
          timesFixture [str "payments_2025-11-15.csv"]
          [uploadedRowFixture]).ledger =
      rowsForSource (str "/outgoing/payments_2025-11-15.csv")
        [uploadedRowFixture] ∧
    str "/outgoing/payments_2025-11-15.csv" ∉ actionFetches
        (cf_lifefile_sftp_to_gcs cfgFixture gzFixture fetchFixture uploadFixture
          timesFixture [str "payments_2025-11-15.csv"]
          [uploadedRowFixture]).actions :=
  (C3_landing_idempotent cfgFixture gzFixture fetchFixture uploadFixture
    timesFixture [str "payments_2025-11-15.csv"] [uploadedRowFixture]
    (str "/outgoing/payments_2025-11-15.csv") (by decide)).2

/-! ### C7: the SUCCESS-row invariant -/

/-- One mutation of the ingestion log, as the two functions perform
them: the lander's row insertion (status `UPLOADED` on success or
`FAILED` on failure, load columns null), the loader's success update
(status `SUCCESS` with dataset, table and job id all set), and the
loader's failure update (error and timestamp only). -/
inductive LedgerStep (source_system : Str) : Ledger → Ledger → Prop
  | landed (L : Ledger) (file_type : Str) (file_date : Option Date)
      (source_path : Option Str) (blob : Option BlobInfo)
      (started_at : DateTime) (finished_at : Option DateTime) (status : Str)
      (error_message : Option Str)
      (hstatus : status = str "UPLOADED" ∨ status = str "FAILED") :
      LedgerStep source_system L
        (L ++ [mkIngestionRow source_system file_type file_date source_path
          blob started_at finished_at status error_message])
  | loadSuccess (L : Ledger) (gcs_uri raw_table_name job_id : Str)
      (finished_at : DateTime) :
      LedgerStep source_system L
        (_update_ingestion_log_after_load source_system gcs_uri
          (some LIFEFILE_RAW_DATASET) (some raw_table_name) (some job_id)
          (str "SUCCESS") finished_at none L)
  | loadFailure (L : Ledger) (gcs_uri : Str) (finished_at : DateTime)
      (error_message : Str) :
      LedgerStep source_system L
        (_update_ingestion_log_error_only source_system gcs_uri finished_at
          error_message L)

/-- A ledger state the pipeline can produce from the empty table. -/
def LedgerReachable (source_system : Str) (L : Ledger) : Prop :=
  Relation.ReflTransGen (LedgerStep source_system) [] L

/-- Every SUCCESS row carries a non-null destination and job id. -/
def successRowsComplete (L : Ledger) : Prop :=
  ∀ r ∈ L, r.status = str "SUCCESS" →
    r.target_dataset.isSome ∧ r.target_table.isSome ∧ r.load_job_id.isSome

/-- C7: in every ledger state reachable from the empty ledger through
the lander's insertions and the loader's success and failure updates,
every row with status SUCCESS has target_dataset, target_table and
load_job_id all non-null. -/
theorem C7_success_rows_complete (source_system : Str) (L : Ledger)
    (h : LedgerReachable source_system L) : successRowsComplete L := by
  induction h with
  | refl => intro r hr; cases hr
  | tail _ step ih =>
    cases step with
    | landed ft fd sp blob st fin status err hstatus =>
      intro r hr hsucc
      rcases List.mem_append.mp hr with hr | hr
      · exact ih r hr hsucc
      · simp only [List.mem_singleton] at hr
        subst hr
        exfalso
        have hs : status = str "SUCCESS" := hsucc
        rcases hstatus with hst | hst <;> rw [hst] at hs <;>
          exact absurd hs (by decide)
    | loadSuccess uri tbl job fin =>
      intro r hr hsucc
      unfold _update_ingestion_log_after_load at hr
      rcases List.mem_map.mp hr with ⟨r₀, hr₀, hfr⟩
      subst hfr
      try dsimp only at hsucc ⊢
      by_cases hc :
          (r₀.gcs_uri == some uri && r₀.source_system == source_system) = true
      · rw [if_pos hc]
        exact ⟨rfl, rfl, rfl⟩
      · rw [if_neg hc] at hsucc ⊢
        exact ih r₀ hr₀ hsucc
    | loadFailure uri fin msg =>
      intro r hr hsucc
      unfold _update_ingestion_log_error_only at hr
      rcases List.mem_map.mp hr with ⟨r₀, hr₀, hfr⟩
      subst hfr
      try dsimp only at hsucc ⊢
      by_cases hc :
          (r₀.gcs_uri == some uri && r₀.source_system == source_system) = true
      · rw [if_pos hc] at hsucc ⊢
        exact ih r₀ hr₀ hsucc
      · rw [if_neg hc] at hsucc ⊢
        exact ih r₀ hr₀ hsucc

theorem C7_success_rows_complete_witness :
    successRowsComplete
      ([] ++ [mkIngestionRow (str "lifefile") (str "payments")
        (some ⟨2025, 11, 15⟩) (some (str "/outgoing/payments_2025-11-15.csv"))
        none ⟨2025, 11, 15, 23, 45, 0⟩ (some ⟨2025, 11, 15, 23, 45, 3⟩)
        (str "UPLOADED") none]) :=
  C7_success_rows_complete (str "lifefile") _
    (Relation.ReflTransGen.single
      (LedgerStep.landed [] (str "payments") (some ⟨2025, 11, 15⟩)
        (some (str "/outgoing/payments_2025-11-15.csv")) none
        ⟨2025, 11, 15, 23, 45, 0⟩ (some ⟨2025, 11, 15, 23, 45, 3⟩)
        (str "UPLOADED") none (Or.inl rfl)))

/-! ### C5: routing of unrecognized file types -/

/-- C5 (counterexample): a listed item matching a configured pattern
whose derived file type `orders` is not in the routing table is
nevertheless included in the extractor's work list. -/
theorem C5_counterexample_unroutable_in_worklist :
    (str "orders", str "/outgoing/orders_2025-11-15.csv") ∈
      _list_matching_files [str "*.csv"] (str "/outgoing")
        [str "orders_2025-11-15.csv"] ∧
    FILETYPE_TO_RAW_TABLE.lookup (str "orders") = none ∧
    deriveFileType (str "orders_2025-11-15.csv") = str "orders" := by
  refine ⟨?_, by decide, by decide⟩
  decide

/-- C5 (amended): a source item matching a configured pattern is
included in the work list regardless of whether its derived file type is
routable (the extractor never consults the routing table), but no load
is ever attempted for an unroutable type: the loader's parse of its
staged object yields `none`, and a notification whose parse yields
`none` is a no-op (no load submitted, ledger and staging store
untouched). -/
theorem C5_amended_unroutable_logged_but_never_loaded :
    (∀ (patterns : List Str) (baseDir : Str) (listing : List Str) (name : Str),
      name ∈ listing → patternHit patterns name = true →
      (deriveFileType name, baseDir ++ '/' :: name) ∈
        _list_matching_files patterns baseDir listing) ∧
    (∀ (gcs_incoming ft : Str) (d : Date) (i : Nat) (t : DateTime),
      FILETYPE_TO_RAW_TABLE.lookup ft = none → '/' ∉ ft →
      _parse_file_type_from_object_name gcs_incoming
        (uploadObjectPath gcs_incoming ft d (_generate_new_filename ft i t).1) =
        none) ∧
    (∀ (cfg : Config) (event : StorageEvent) (loadResult : LoadOutcome)
        (t : DateTime) (L : Ledger) (storage : List Str),
      _parse_file_type_from_object_name cfg.gcs_incoming event.name = none →
      cf_gcs_to_bq_raw cfg event loadResult t L storage =
        some { loads := [], ledger := L, storage := storage,
               copies := [], deletes := [] }) := by
  refine ⟨?_, ?_, ?_⟩
  · intro patterns baseDir listing name hmem hhit
    unfold _list_matching_files
    apply List.mem_filterMap.mpr
    exact ⟨name, hmem, by rw [if_pos hhit]⟩
  · intro gcs_incoming ft d i t hlk hft
    rw [parse_uploadObjectPath gcs_incoming ft d _ hft
      (slash_not_mem_genName ft i t hft), hlk]
    rfl
  · intro cfg event loadResult t L storage hparse
    simp only [cf_gcs_to_bq_raw, hparse]
    split
    · rfl
    split <;> rfl

theorem C5_amended_unroutable_logged_but_never_loaded_witness :
    (deriveFileType (str "orders_2025-11-15.csv"),
        str "/outgoing" ++ '/' :: str "orders_2025-11-15.csv") ∈
      _list_matching_files [str "*.csv"] (str "/outgoing")
        [str "orders_2025-11-15.csv"] ∧
    _parse_file_type_from_object_name (str "raw/incoming")
      (uploadObjectPath (str "raw/incoming") (str "orders") ⟨2025, 11, 15⟩
        (_generate_new_filename (str "orders") 1
          ⟨2025, 11, 15, 23, 45, 3⟩).1) = none ∧
    cf_gcs_to_bq_raw cfgFixture
        ⟨str "lifefile-raw", str "raw/incoming/orders/2025/11/15/x.csv.gz"⟩
        (.ok (str "j1")) ⟨2025, 11, 15, 23, 50, 0⟩ [] [] =
      some { loads := [], ledger := [], storage := [],
             copies := [], deletes := [] } :=
  ⟨C5_amended_unroutable_logged_but_never_loaded.1 [str "*.csv"]
      (str "/outgoing") [str "orders_2025-11-15.csv"]
      (str "orders_2025-11-15.csv") (by decide) (by decide),
    C5_amended_unroutable_logged_but_never_loaded.2.1 (str "raw/incoming")
      (str "orders") ⟨2025, 11, 15⟩ 1 ⟨2025, 11, 15, 23, 45, 3⟩
      (by decide) (by decide),
    C5_amended_unroutable_logged_but_never_loaded.2.2 cfgFixture
      ⟨str "lifefile-raw", str "raw/incoming/orders/2025/11/15/x.csv.gz"⟩
      (.ok (str "j1")) ⟨2025, 11, 15, 23, 50, 0⟩ [] [] (by decide)⟩

/-! ### C9: distinct staging names within one run -/

/-- A generated staging name, reversed, decomposes as the reversed
`batchNN.csv.gz` tail, a separator, and the rest. -/
theorem genName_reverse (ft : Str) (i : Nat) (t : DateTime) :
    ((_generate_new_filename ft i t).1).reverse =
      ((str ".csv.gz").reverse ++ (batchStr i).reverse) ++
        '_' :: ((tsString t).reverse ++ '_' :: ft.reverse) := by
  unfold _generate_new_filename
  simp

/-- The first `_`-separated component of a reversed generated name is
the reversed `batchNN.csv.gz` tail. -/
theorem genName_reverse_head (ft : Str) (i : Nat) (t : DateTime) :
    (pySplitSep '_' ((_generate_new_filename ft i t).1).reverse).headI =
      (str ".csv.gz").reverse ++ (batchStr i).reverse := by
  rw [genName_reverse]
  apply pySplitSep_headI
  intro hm
  rcases List.mem_append.mp hm with hm | hm
  · exact absurd hm (by decide)
  · rw [List.mem_reverse] at hm
    exact underscore_not_mem_batchStr i hm

/-- Two generated staging names can only coincide when their batch
sequence numbers coincide — whatever the file types and timestamps. -/
theorem genName_batch_inj (ft₁ ft₂ : Str) (i₁ i₂ : Nat) (t₁ t₂ : DateTime)
    (h : (_generate_new_filename ft₁ i₁ t₁).1 =
      (_generate_new_filename ft₂ i₂ t₂).1) : i₁ = i₂ := by
  have hrev := congrArg (fun s => (pySplitSep '_' s.reverse).headI) h
  dsimp only at hrev
  rw [genName_reverse_head, genName_reverse_head] at hrev
  have h2 := List.append_cancel_left hrev
  have h3 := List.reverse_injective h2
  unfold batchStr at h3
  exact padNum_injective 2 _ _ (List.append_cancel_left h3)

/-- The `(file_type, batch_idx)` pairs of the processed (non-skipped)
entries of a run, in order. -/
def processedEntries : List (Str × Str × FileAction) → List (Str × Nat)
  | [] => []
  | (ft, _, .processed idx _) :: rest => (ft, idx) :: processedEntries rest
  | _ :: rest => processedEntries rest

/-- The staging file names generated for the processed entries
(`_process_single_file` generates exactly this name for entry
`(ft, idx)`). -/
def processedNames (times : Nat → ProcTimes)
    (entries : List (Str × Nat)) : List Str :=
  entries.map (fun e => (_generate_new_filename e.1 e.2 (times e.2).gen_now).1)

theorem landerLoop_processed_gt (cfg : Config) (gz : Str → Str)
    (fetch : Str → FetchOutcome) (upload : Str → Str → UploadOutcome)
    (times : Nat → ProcTimes) (wl : List (Str × Str)) (idx : Nat) (L : Ledger) :
    ∀ e ∈ processedEntries
      (landerLoop cfg gz fetch upload times wl idx L).actions, idx < e.2 := by
  induction wl generalizing idx L with
  | nil =>
    rw [landerLoop_nil]
    intro e he
    cases he
  | cons hd rest ih =>
    obtain ⟨ft', p'⟩ := hd
    rw [landerLoop_cons]
    by_cases hskip :
        _is_source_file_already_uploaded cfg.source_system p' L = true
    · rw [if_pos hskip]
      intro e he
      exact ih idx L e he
    · rw [if_neg hskip]
      intro e he
      simp only [processedEntries] at he
      rcases List.mem_cons.mp he with rfl | he
      · omega
      · have := ih (idx + 1) _ e he
        omega

theorem landerLoop_processed_pairwise (cfg : Config) (gz : Str → Str)
    (fetch : Str → FetchOutcome) (upload : Str → Str → UploadOutcome)
    (times : Nat → ProcTimes) (wl : List (Str × Str)) (idx : Nat) (L : Ledger) :
    (processedEntries
      (landerLoop cfg gz fetch upload times wl idx L).actions).Pairwise
        (fun a b => a.2 < b.2) := by
  induction wl generalizing idx L with
  | nil =>
    rw [landerLoop_nil]
    exact List.Pairwise.nil
  | cons hd rest ih =>
    obtain ⟨ft', p'⟩ := hd
    rw [landerLoop_cons]
    by_cases hskip :
        _is_source_file_already_uploaded cfg.source_system p' L = true
    · rw [if_pos hskip]
      exact ih idx L
    · rw [if_neg hskip]
      simp only [processedEntries]
      refine List.Pairwise.cons ?_ (ih (idx + 1) _)
      intro e he
      exact landerLoop_processed_gt cfg gz fetch upload times rest (idx + 1) _ e he

/-- Every processed entry's trace is exactly what
`_process_single_file` produces for its file type, path and batch
index. -/
theorem landerLoop_processed_trace (cfg : Config) (gz : Str → Str)
    (fetch : Str → FetchOutcome) (upload : Str → Str → UploadOutcome)
    (times : Nat → ProcTimes) (wl : List (Str × Str)) (idx : Nat) (L : Ledger) :
    ∀ ft p i tr,
      (ft, p, FileAction.processed i tr) ∈
        (landerLoop cfg gz fetch upload times wl idx L).actions →
      tr = _process_single_file cfg gz fetch upload (times i) ft p i := by
  induction wl generalizing idx L with
  | nil =>
    rw [landerLoop_nil]
    intro ft p i tr htr
    cases htr
  | cons hd rest ih =>
    obtain ⟨ft', p'⟩ := hd
    rw [landerLoop_cons]
    by_cases hskip :
        _is_source_file_already_uploaded cfg.source_system p' L = true
    · rw [if_pos hskip]
      intro ft p i tr htr
      rcases List.mem_cons.mp htr with heq | htr
      · exact absurd (congrArg (fun x => x.2.2) heq) (by simp)
      · exact ih idx L ft p i tr htr
    · rw [if_neg hskip]
      intro ft p i tr htr
      rcases List.mem_cons.mp htr with heq | htr
      · have h1 := congrArg (fun x => x.1) heq
        have h2 := congrArg (fun x => x.2.1) heq
        have h3 := congrArg (fun x => x.2.2) heq
        dsimp only at h1 h2 h3
        subst h1
        subst h2
        injection h3 with h4 h5
        subst h4
        subst h5
        rfl
      · exact ih (idx + 1) _ ft p i tr htr

/-- C9: within one run the staging names generated for the processed
files are pairwise distinct (each processed entry gets a strictly larger
batch number and the batch number is recoverable from the name), and
each processed entry's trace — in particular its upload — is exactly
`_process_single_file` at its `(file_type, path, batch_idx)`, which
generates exactly the name `processedNames` lists for it. -/
theorem C9_staging_names_distinct (cfg : Config) (gz : Str → Str)
    (fetch : Str → FetchOutcome) (upload : Str → Str → UploadOutcome)
    (times : Nat → ProcTimes) (listing : List Str) (L : Ledger) :
    (processedNames times (processedEntries
      (cf_lifefile_sftp_to_gcs cfg gz fetch upload times listing L).actions)).Nodup ∧
    (∀ ft p i tr,
      (ft, p, FileAction.processed i tr) ∈
        (cf_lifefile_sftp_to_gcs cfg gz fetch upload times listing L).actions →
      tr = _process_single_file cfg gz fetch upload (times i) ft p i) := by
  constructor
  · have hp := landerLoop_processed_pairwise cfg gz fetch upload times
      (_list_matching_files cfg.sftp_file_patterns cfg.sftp_base_dir listing) 0 L
    unfold cf_lifefile_sftp_to_gcs processedNames
    exact List.Pairwise.map _
      (fun a b hab hEq =>
        absurd (genName_batch_inj a.1 b.1 a.2 b.2 _ _ hEq) (Nat.ne_of_lt hab))
      hp
  · unfold cf_lifefile_sftp_to_gcs
    exact landerLoop_processed_trace cfg gz fetch upload times _ 0 L

theorem C9_staging_names_distinct_witness :
    (processedNames timesFixture (processedEntries
      (cf_lifefile_sftp_to_gcs cfgFixture gzFixture fetchFixture uploadFixture
        timesFixture
        [str "payments_2025-11-15.csv", str "providers_2025-11-15.csv"]
        []).actions)).Nodup ∧
    _process_single_file cfgFixture gzFixture fetchFixture uploadFixture
        (timesFixture 1) (str "payments")
        (str "/outgoing/payments_2025-11-15.csv") 1 =
      _process_single_file cfgFixture gzFixture fetchFixture uploadFixture
        (timesFixture 1) (str "payments")
        (str "/outgoing/payments_2025-11-15.csv") 1 :=
  ⟨(C9_staging_names_distinct cfgFixture gzFixture fetchFixture uploadFixture
      timesFixture
      [str "payments_2025-11-15.csv", str "providers_2025-11-15.csv"] []).1,
    (C9_staging_names_distinct cfgFixture gzFixture fetchFixture uploadFixture
      timesFixture
      [str "payments_2025-11-15.csv", str "providers_2025-11-15.csv"] []).2
      (str "payments") (str "/outgoing/payments_2025-11-15.csv") 1 _
      (by decide)⟩

end LifeFile
